import Mathlib

/-!
# Shallow embedding of netbuilder's middleware resolution engine

This file embeds the middleware resolution and execution engine of the
`netbuilder` repository (`src/Internal/MiddlewareResolver.ts` and
`src/Util/rustResult.ts`) into Lean 4 and proves or refutes the
specification's claims about it.

Modelling conventions:
* TypeScript `unknown` values (middleware arguments, return values) are
  modelled over an arbitrary type `U`.
* Roblox's `RunService.IsServer()` / `RunService.IsClient()` and
  `Players.LocalPlayer` are modelled as an explicit `RunServiceState`
  record; in a running game `IsClient() = not IsServer()`.
* `@rbxts/rust-classes` is a port of Rust's standard classes: its
  `Result` is modelled by `Except`, its `Option` by `Option`, and
  `Vec.dedupBy` by `dedupBy` below, following the documented semantics
  of Rust's `Vec::dedup_by` (removal of all but the first of
  *consecutive* elements for which the predicate holds, the candidate
  being compared against the last kept element).
* TypeScript / Lua objects are modelled structurally: a field that a
  source file reads but the producer never set is `Option.none`
  (Lua `nil`).
* Array mutation (`shift`, `push`) is modelled by explicit state
  passing; the source only ever calls `getPlayerFromArgs(...args)` on a
  spread copy, so the caller's array is never mutated by it.
-/

namespace NetBuilderModel

/-- Execution-side context: `RunService.IsServer()` and
`Players.LocalPlayer`.  In a running Roblox game exactly one side holds,
so `IsClient` is the negation of `IsServer`. -/
structure RunServiceState (U : Type) where
  IsServer : Bool
  LocalPlayer : U

def RunServiceState.IsClient {U : Type} (rs : RunServiceState U) : Bool :=
  !rs.IsServer

/-- Source type `ThreadResult = Result<[newParams | undefined, returnFn], string>`:
the settled outcome of one middleware stage invocation.  `newParams` is
`none` when the stage accepted without supplying arguments (Lua `nil`). -/
inductive ThreadResult (U : Type) where
  | ok (newParams : Option (List U)) (returnFn : U → U)
  | err (reason : String)

def ThreadResult.isOk {U : Type} : ThreadResult U → Bool
  | .ok _ _ => true
  | .err _ => false

def ThreadResult.isErr {U : Type} (r : ThreadResult U) : Bool :=
  !r.isOk

/-- The direction argument `kind: "Send" | "Recv"`. -/
inductive Kind where
  | Send
  | Recv
deriving DecidableEq

/-- A middleware stage: a label plus one callback per direction.  The
channel machinery turns a stage's callback-style body into a settled
`ThreadResult`; at chain level we model each direction's callback
directly by its settled outcome as a function of the player (possibly
`nil`) and the current parameter list. -/
structure NetBuilderMiddleware (U : Type) where
  Label : String
  Send : Option U → List U → ThreadResult U
  Recv : Option U → List U → ThreadResult U

/-- The members of a remote definition used by the resolver: its own
middleware list, the namespace's global middleware list
(`definition.Namespace[GlobalMiddleware]`, installed by
`NetBuilder.UseGlobalMiddleware`), and identity metadata for the
diagnostic label. -/
structure RemoteDefinitionMembers (U : Type) where
  Middlewares : List (NetBuilderMiddleware U)
  GlobalMiddlewares : List (NetBuilderMiddleware U)
  Identity : String

/-- Modelled from the spec: `src/Util/definitionInfo.ts` is not under
`src/`; the spec only requires that it renders the target's
human-readable diagnostic label from its identity metadata (§3 "Remote
Target", glossary "Diagnostic label"). -/
def definitionInfo {U : Type} (d : RemoteDefinitionMembers U) : String :=
  d.Identity

/-- Source constant `MiddlewareResolver.timeout = 60`. -/
def timeout : Nat := 60

/-- Source constant `` MiddlewareResolver.timeoutMsg = `middleware processing has timed out. (${timeout}s)` ``. -/
def timeoutMsg : String :=
  "middleware processing has timed out. (" ++ toString timeout ++ "s)"

/-- The reason string passed to `drop` when the per-stage timeout fires:
`` `${definitionInfo(definition)} ${msg}` `` with `msg = timeoutMsg`. -/
def timeoutReason {U : Type} (d : RemoteDefinitionMembers U) : String :=
  definitionInfo d ++ " " ++ timeoutMsg

/-- Tail worker of `dedupBy`: `kept` is the last retained element; a
candidate `x` with `same x kept` is dropped, otherwise it is retained
and becomes the new comparison point. -/
def dedupByGo {α : Type} (same : α → α → Bool) (kept : α) : List α → List α
  | [] => []
  | x :: xs => if same x kept then dedupByGo same kept xs
               else x :: dedupByGo same x xs

/-- Model of `Vec.dedupBy` from `@rbxts/rust-classes`, which ports
Rust's `Vec::dedup_by`: removes all but the first of *consecutive*
elements satisfying the predicate (each candidate is compared against
the last element that was kept). -/
def dedupBy {α : Type} (same : α → α → Bool) : List α → List α
  | [] => []
  | x :: xs => x :: dedupByGo same x xs

/-- Source function `getMiddlewares`: target-scoped middlewares concatenated with the
namespace's global middlewares, deduplicated with the predicate
`l1 === l2 && l1 !== "Unknown"` on labels. -/
def getMiddlewares {U : Type} (d : RemoteDefinitionMembers U) :
    List (NetBuilderMiddleware U) :=
  dedupBy (fun m1 m2 => m1.Label == m2.Label && m1.Label != "Unknown")
    (d.Middlewares ++ d.GlobalMiddlewares)

/-- Source function `getPlayerFromArgs`: on the client, `Players.LocalPlayer`; otherwise
the first element shifted off a (copy of the) argument list.  `none`
models the Lua `nil` produced by `shift()` on an empty array. -/
def getPlayerFromArgs {U : Type} (rs : RunServiceState U) (args : List U) :
    Option U :=
  if rs.IsClient then some rs.LocalPlayer
  else args.head?

/-- Source function `resolveParameters`: copies the argument list and removes its first
element when running on the server. -/
def resolveParameters {U : Type} (rs : RunServiceState U) (args : List U) :
    List U :=
  if rs.IsServer then args.tail else args

/-- The chain state threaded through `checkMiddlewares`.  `Result` is
`none` while the TypeScript field is still `undefined`. -/
structure MiddlewareEntry (U : Type) where
  CurrentParameters : List U
  ReturnCallbacks : List (U → U)
  Result : Option (ThreadResult U)

/-- Selects `m[kind]`. -/
def stageCallback {U : Type} (m : NetBuilderMiddleware U) :
    Kind → (Option U → List U → ThreadResult U)
  | .Send => m.Send
  | .Recv => m.Recv

/-- The guard `!state.Result || state.Result.isOk()`. -/
def resultGuard {U : Type} (r : Option (ThreadResult U)) : Bool :=
  match r with
  | none => true
  | some r => r.isOk

/-- The loop body of `checkMiddlewares`: for each middleware, settle its
channel on the current parameters; on `ok` replace the parameters with
the stage's new parameters (`?? []`), push its return callback and store
the result; on `err` store the error and break. -/
def checkLoop {U : Type} (player : Option U) (kind : Kind) :
    List (NetBuilderMiddleware U) → MiddlewareEntry U → MiddlewareEntry U
  | [], st => st
  | m :: ms, st =>
    let result := stageCallback m kind player st.CurrentParameters
    let st1 : MiddlewareEntry U :=
      if resultGuard st.Result then
        match result with
        | .ok newParams returnFn =>
            { CurrentParameters := newParams.getD []
              ReturnCallbacks := st.ReturnCallbacks ++ [returnFn]
              Result := some (.ok newParams returnFn) }
        | .err e => { st with Result := some (.err e) }
      else st
    if (match st1.Result with | some r => r.isErr | none => false) then st1
    else checkLoop player kind ms st1

/-- Source function `checkMiddlewares(definition, kind, args)`. -/
def checkMiddlewares {U : Type} (rs : RunServiceState U)
    (d : RemoteDefinitionMembers U) (kind : Kind) (args : List U) :
    MiddlewareEntry U :=
  let player := getPlayerFromArgs rs args
  let middlewares := getMiddlewares d
  checkLoop player kind middlewares
    { CurrentParameters := resolveParameters rs args
      ReturnCallbacks := []
      Result := none }

/-- The runtime shape of a `NetBuilderResult` value, structurally: the
fields written by `CreateReceiver` (`Result`, `Value`, `Message`) and
the field read by `rustResult` (`Type`).  A field the producer never set
is `none` (Lua `nil`). -/
structure NetBuilderResult (U : Type) where
  Result : Option String := none
  «Type» : Option String := none
  Value : Option U := none
  Message : Option String := none

/-- The argument list the real callback is invoked with:
`RunService.IsServer() ? callback(player, ...args) : callback(...args)`.
On the server the extracted player is prepended (the degenerate
`nil`-player case, an empty server-side argument list, prepends
nothing). -/
def executeArgs {U : Type} (rs : RunServiceState U) (player : Option U)
    (args : List U) : List U :=
  if rs.IsServer then player.toList ++ args else args

/-- Source function `CreateReceiver(definition, callback)` applied to `args`. -/
def CreateReceiver {U : Type} (rs : RunServiceState U)
    (d : RemoteDefinitionMembers U) (callback : List U → U) (args : List U) :
    NetBuilderResult U :=
  let player := getPlayerFromArgs rs args
  let middlewares := getMiddlewares d
  let executeFn : List U → U := fun a => callback (executeArgs rs player a)
  if middlewares.length > 0 then
    let state := checkMiddlewares rs d .Recv args
    match state.Result with
    | some (.err e) => { Result := some "ERR", Message := some e }
    | _ =>
        { Result := some "OK"
          Value := some (state.ReturnCallbacks.foldl (fun acc fn => fn acc)
            (executeFn state.CurrentParameters)) }
  else { Result := some "OK", Value := some (executeFn args) }

/-- Source function `CreateSender(definition, ...args)`: on success the transformed
parameters and the composed return-value transform, otherwise the
rejection reason. -/
def CreateSender {U : Type} (rs : RunServiceState U)
    (d : RemoteDefinitionMembers U) (args : List U) :
    Except String (List U × (U → U)) :=
  let middlewares := getMiddlewares d
  if middlewares.length > 0 then
    let state := checkMiddlewares rs d .Send args
    match state.Result with
    | some (.err e) => .error e
    | _ => .ok (state.CurrentParameters,
        fun r => state.ReturnCallbacks.foldl (fun acc fn => fn acc) r)
  else .ok (args, fun r => r)

/-- Source file `src/Util/rustResult.ts`:
`v.Type === "Ok" ? Result.ok(v.Value) : Result.err(v.Message)`.
The payloads stay `Option`-valued because the fields may be absent. -/
def rustResult {U : Type} (v : NetBuilderResult U) :
    Except (Option String) (Option U) :=
  if v.«Type» == some "Ok" then .ok v.Value else .error v.Message

/-! ## The Stage Channel (`createChannel`)

`createChannel` races the stage body against a timeout; whichever of
{`processNext`, `drop`, timeout} arrives first runs the single `close`,
which is guarded by the `isDone` flag.  `close` (when it takes effect):
sets `isDone`, spawns the waiter coroutine `co` with the final result,
defers `coroutine.close` of the stage coroutine `ch`, cancels the
timeout promise, fires the bindable that wakes the chain, and then
suspends the calling coroutine with a trailing `coroutine.yield()`.  We
model the resources as counters so that double release is observable. -/

/-- The resource state of one stage channel. -/
structure ChannelState (U : Type) where
  isDone : Bool
  settled : Option (ThreadResult U)
  waiterSpawns : Nat
  chCloseDefers : Nat
  timeoutCancels : Nat
  bindableFires : Nat

/-- A freshly created channel: not settled, no resource released. -/
def initChannel {U : Type} : ChannelState U :=
  { isDone := false, settled := none, waiterSpawns := 0, chCloseDefers := 0
    timeoutCancels := 0, bindableFires := 0 }

/-- The idempotent `close`: a no-op once `isDone` is set; otherwise it
marks the channel done, records the result delivered to the waiter
(`task.spawn(co, result)`), defers `coroutine.close(ch)`, cancels the
timeout and fires the bindable — each exactly once. -/
def close {U : Type} (result : ThreadResult U) (st : ChannelState U) :
    ChannelState U :=
  if st.isDone then st
  else
    { isDone := true, settled := some result
      waiterSpawns := st.waiterSpawns + 1
      chCloseDefers := st.chCloseDefers + 1
      timeoutCancels := st.timeoutCancels + 1
      bindableFires := st.bindableFires + 1 }

/-- Source continuation `processNext(args, returnFn)`; `args` may be Lua `nil`. -/
def processNext {U : Type} (args : Option (List U)) (returnFn : U → U)
    (st : ChannelState U) : ChannelState U :=
  close (.ok args returnFn) st

/-- Source continuation `drop(reason)`. -/
def channelDrop {U : Type} (reason : String) (st : ChannelState U) :
    ChannelState U :=
  close (.err reason) st

/-- A continuation call made by the stage body. -/
inductive ChannelEvent (U : Type) where
  | accept (args : Option (List U)) (returnFn : U → U)
  | reject (reason : String)

/-- The result a continuation call carries into `close`. -/
def eventResult {U : Type} : ChannelEvent U → ThreadResult U
  | .accept a f => .ok a f
  | .reject r => .err r

/-- The chronological sequence of `close` attempts of one channel: the
stage's timestamped continuation calls, with the timeout's
`drop(definitionInfo(definition) .. " " .. timeoutMsg)` inserted at time
`timeout` (= 60) between the stage events that precede it and those that
follow it. -/
def channelCloses {U : Type} (d : RemoteDefinitionMembers U)
    (stageEvents : List (Nat × ChannelEvent U)) :
    List (Nat × ThreadResult U) :=
  (stageEvents.filter (fun e => decide (e.1 < timeout))).map
      (fun e => (e.1, eventResult e.2))
    ++ [(timeout, .err (timeoutReason d))]
    ++ (stageEvents.filter (fun e => !decide (e.1 < timeout))).map
      (fun e => (e.1, eventResult e.2))

/-- Runs every `close` attempt, in order, over a fresh channel. -/
def runChannel {U : Type} (d : RemoteDefinitionMembers U)
    (stageEvents : List (Nat × ChannelEvent U)) : ChannelState U :=
  (channelCloses d stageEvents).foldl (fun st e => close e.2 st) initChannel

/-- The time of the first `close` attempt: since `close` is
first-wins, this is when the channel settles. -/
def settleTime {U : Type} (d : RemoteDefinitionMembers U)
    (stageEvents : List (Nat × ChannelEvent U)) : Option Nat :=
  ((channelCloses d stageEvents).head?).map Prod.fst

/-! ## The stage body as a step sequence

For the control-flow claim about `close`'s trailing `coroutine.yield()`
we model a stage body as a list of steps executed inside the stage
coroutine `ch`.  A `callAccept`/`callReject` step invokes the
continuation: when the channel is not yet done, `close` takes effect and
ends in `coroutine.yield()`, suspending `ch` forever (the deferred
`coroutine.close(ch)` prevents any resumption), so no later step runs;
when the channel is already done (e.g. the timeout fired first), `close`
returns immediately and the body continues. -/

/-- One step of a stage body: an unrelated action, or a continuation
call. -/
inductive StageStep (U : Type) where
  | act
  | callAccept (args : Option (List U)) (returnFn : U → U)
  | callReject (reason : String)

/-- Runs a stage body inside its coroutine, returning the number of
steps that actually execute and the resulting channel state. -/
def runStageBody {U : Type} :
    List (StageStep U) → ChannelState U → Nat × ChannelState U
  | [], st => (0, st)
  | .act :: rest, st =>
      let r := runStageBody rest st
      (r.1 + 1, r.2)
  | .callAccept a f :: rest, st =>
      if st.isDone then
        let r := runStageBody rest (processNext a f st)
        (r.1 + 1, r.2)
      else (1, processNext a f st)
  | .callReject m :: rest, st =>
      if st.isDone then
        let r := runStageBody rest (channelDrop m st)
        (r.1 + 1, r.2)
      else (1, channelDrop m st)

/-! ## Spec-side definitions

These definitions follow the specification's words rather than the
source; they exist only to be compared with the source-derived
definitions above. -/

/-- Spec-side run of an all-accepting chain (§8 *Order preservation*):
starting from a parameter list, each stage in declaration order must
accept on the parameters it receives; the run collects the final
parameter list and each stage's return-value transform in declaration
order.  `none` when some stage rejects. -/
def acceptingTransforms {U : Type} (player : Option U) (kind : Kind) :
    List (NetBuilderMiddleware U) → List U →
    Option (List U × List (U → U))
  | [], params => some (params, [])
  | m :: ms, params =>
    match stageCallback m kind player params with
    | .ok np g =>
        (acceptingTransforms player kind ms (np.getD [])).map
          (fun r => (r.1, g :: r.2))
    | .err _ => none

/-- Spec-side composition `stageN(...stage1(v))`: the first-accepted
transform is applied first (innermost), the last one last (outermost). -/
def composeTransforms {U : Type} (gs : List (U → U)) : U → U :=
  gs.foldl (fun acc g => g ∘ acc) id

/-! ## Concrete fixtures for witnesses and counterexamples -/

/-- A stage that accepts and passes the received parameters through
unchanged with an identity return transform. -/
def passStage (label : String) : NetBuilderMiddleware Nat :=
  { Label := label
    Send := fun _ ps => .ok (some ps) (fun v => v)
    Recv := fun _ ps => .ok (some ps) (fun v => v) }

/-- The spec's dedup example: target stages `[A(x), B(x), C(y)]`. -/
def mwA : NetBuilderMiddleware Nat := passStage "x"

def mwB : NetBuilderMiddleware Nat :=
  { Label := "x"
    Send := fun _ ps => .ok (some ps) (fun v => v + 1)
    Recv := fun _ ps => .ok (some ps) (fun v => v + 1) }

def mwC : NetBuilderMiddleware Nat := passStage "y"

/-- The spec's dedup example: global stage `[D(x)]`. -/
def mwD : NetBuilderMiddleware Nat :=
  { Label := "x"
    Send := fun _ ps => .ok (some ps) (fun v => v * 2)
    Recv := fun _ ps => .ok (some ps) (fun v => v * 2) }

/-- The spec's dedup example target. -/
def exDedupDef : RemoteDefinitionMembers Nat :=
  { Middlewares := [mwA, mwB, mwC]
    GlobalMiddlewares := [mwD]
    Identity := "Ex" }

/-- A server-side execution context with `LocalPlayer = 0`. -/
def rsServer : RunServiceState Nat :=
  { IsServer := true, LocalPlayer := 0 }

/-- A client-side execution context with `LocalPlayer = 0`. -/
def rsClient : RunServiceState Nat :=
  { IsServer := false, LocalPlayer := 0 }

/-! ## Helper lemmas about `dedupBy` -/

lemma dedupByGo_sublist {α : Type} (same : α → α → Bool) :
    ∀ (l : List α) (kept : α), List.Sublist (dedupByGo same kept l) l := by
  intro l
  induction l with
  | nil => intro kept; simp [dedupByGo]
  | cons x xs ih =>
    intro kept
    by_cases h : same x kept = true
    · simpa [dedupByGo, h] using (ih kept).cons x
    · simp only [dedupByGo, h, Bool.false_eq_true, if_false]
      exact (ih x).cons₂ x

lemma dedupByGo_chain {α : Type} (same : α → α → Bool) :
    ∀ (l : List α) (kept : α),
      List.Chain (fun a b => same b a = false) kept (dedupByGo same kept l) := by
  intro l
  induction l with
  | nil => intro kept; simp [dedupByGo]
  | cons x xs ih =>
    intro kept
    by_cases h : same x kept = true
    · simpa [dedupByGo, h] using ih kept
    · simp only [dedupByGo, h, Bool.false_eq_true, if_false]
      exact List.Chain.cons (by simpa using h) (ih x)

lemma dedupByGo_countP {α : Type} (same : α → α → Bool) (p : α → Bool)
    (hp : ∀ x k, p x = true → same x k = false) :
    ∀ (l : List α) (kept : α),
      (dedupByGo same kept l).countP p = l.countP p := by
  intro l
  induction l with
  | nil => intro kept; simp [dedupByGo]
  | cons x xs ih =>
    intro kept
    by_cases h : same x kept = true
    · have hx : p x = false := by
        by_contra hx
        have := hp x kept (by simpa using hx)
        rw [this] at h
        exact Bool.false_ne_true h
      simp [dedupByGo, h, List.countP_cons, hx, ih kept]
    · simp [dedupByGo, h, List.countP_cons, ih x]

/-- The dedup predicate used by `getMiddlewares`. -/
def labelDup {U : Type} (m1 m2 : NetBuilderMiddleware U) : Bool :=
  m1.Label == m2.Label && m1.Label != "Unknown"

lemma getMiddlewares_eq_dedup {U : Type} (d : RemoteDefinitionMembers U) :
    getMiddlewares d = dedupBy labelDup (d.Middlewares ++ d.GlobalMiddlewares) := rfl

/-! ## Claim C1 -/

/-- C1 counterexample: for the spec's own example — target stages
`[A(x), B(x), C(y)]` plus global stages `[D(x)]` — `getMiddlewares`
resolves the chain with labels `[x, y, x]` (the non-consecutive global
duplicate `D` survives), not `[A, C]` with labels `[x, y]` as the claim
states. -/
theorem getMiddlewares_dedup_example_not_global :
    (getMiddlewares exDedupDef).map (fun m => m.Label) = ["x", "y", "x"] ∧
    (getMiddlewares exDedupDef).map (fun m => m.Label) ≠ ["x", "y"] := by
  constructor
  · decide
  · decide

/-- C1 (amended): for every target, the resolved chain is the
target-scoped stages concatenated with the global stages with later
duplicates of the same non-"Unknown" label dropped only when they are
consecutive with the retained occurrence (`Vec.dedupBy` ports Rust's
`Vec::dedup_by`, which collapses each run of matching elements to its
first element): the resolved chain is a subsequence of the
concatenation, no two adjacent resolved stages share a non-"Unknown"
label, stages labeled "Unknown" are never dropped, and for the example
(target `[A(x), B(x), C(y)]` plus global `[D(x)]`) the resolved chain is
exactly `[A, C, D]`. -/
theorem getMiddlewares_consecutive_dedup :
    (∀ (U : Type) (d : RemoteDefinitionMembers U),
      List.Sublist (getMiddlewares d) (d.Middlewares ++ d.GlobalMiddlewares)) ∧
    (∀ (U : Type) (d : RemoteDefinitionMembers U),
      List.Chain' (fun a b => labelDup b a = false) (getMiddlewares d)) ∧
    (∀ (U : Type) (d : RemoteDefinitionMembers U),
      (getMiddlewares d).countP (fun m => m.Label == "Unknown") =
        (d.Middlewares ++ d.GlobalMiddlewares).countP
          (fun m => m.Label == "Unknown")) ∧
    getMiddlewares exDedupDef = [mwA, mwC, mwD] := by
  refine ⟨?_, ?_, ?_, ?_⟩
  · intro U d
    rw [getMiddlewares_eq_dedup]
    cases h : d.Middlewares ++ d.GlobalMiddlewares with
    | nil => simp [dedupBy]
    | cons x xs => exact (dedupByGo_sublist labelDup xs x).cons₂ x
  · intro U d
    rw [getMiddlewares_eq_dedup]
    cases h : d.Middlewares ++ d.GlobalMiddlewares with
    | nil => simp [dedupBy]
    | cons x xs =>
      show List.Chain' _ (x :: dedupByGo labelDup x xs)
      exact dedupByGo_chain labelDup xs x
  · intro U d
    rw [getMiddlewares_eq_dedup]
    have hp : ∀ (x k : NetBuilderMiddleware U),
        (x.Label == "Unknown") = true → labelDup x k = false := by
      intro x k hx
      have hx' : x.Label = "Unknown" := by simpa using hx
      simp [labelDup, hx']
    cases h : d.Middlewares ++ d.GlobalMiddlewares with
    | nil => simp [dedupBy]
    | cons x xs =>
      simp only [dedupBy, List.countP_cons]
      rw [dedupByGo_countP labelDup _ hp xs x]
  · rfl

/-! ## Helper lemmas about `checkLoop` -/

lemma checkLoop_cons_ok {U : Type} (player : Option U) (kind : Kind)
    (m : NetBuilderMiddleware U) (ms : List (NetBuilderMiddleware U))
    (st : MiddlewareEntry U) (np : Option (List U)) (g : U → U)
    (hguard : resultGuard st.Result = true)
    (hcb : stageCallback m kind player st.CurrentParameters = .ok np g) :
    checkLoop player kind (m :: ms) st =
      checkLoop player kind ms
        { CurrentParameters := np.getD []
          ReturnCallbacks := st.ReturnCallbacks ++ [g]
          Result := some (.ok np g) } := by
  simp [checkLoop, hguard, hcb, ThreadResult.isErr, ThreadResult.isOk]

lemma checkLoop_cons_err {U : Type} (player : Option U) (kind : Kind)
    (m : NetBuilderMiddleware U) (ms : List (NetBuilderMiddleware U))
    (st : MiddlewareEntry U) (e : String)
    (hguard : resultGuard st.Result = true)
    (hcb : stageCallback m kind player st.CurrentParameters = .err e) :
    checkLoop player kind (m :: ms) st = { st with Result := some (.err e) } := by
  simp [checkLoop, hguard, hcb, ThreadResult.isErr, ThreadResult.isOk]

lemma checkLoop_accepting {U : Type} (player : Option U) (kind : Kind) :
    ∀ (ms : List (NetBuilderMiddleware U)) (st : MiddlewareEntry U)
      (ps : List U) (gs : List (U → U)),
      resultGuard st.Result = true →
      acceptingTransforms player kind ms st.CurrentParameters = some (ps, gs) →
      (checkLoop player kind ms st).CurrentParameters = ps ∧
      (checkLoop player kind ms st).ReturnCallbacks = st.ReturnCallbacks ++ gs ∧
      resultGuard (checkLoop player kind ms st).Result = true := by
  intro ms
  induction ms with
  | nil =>
    intro st ps gs hguard hacc
    simp only [acceptingTransforms, Option.some.injEq, Prod.mk.injEq] at hacc
    obtain ⟨hps, hgs⟩ := hacc
    simp [checkLoop, hps.symm, hgs.symm, hguard]
  | cons m ms ih =>
    intro st ps gs hguard hacc
    simp only [acceptingTransforms] at hacc
    cases hcb : stageCallback m kind player st.CurrentParameters with
    | err e => rw [hcb] at hacc; simp at hacc
    | ok np g =>
      rw [hcb] at hacc
      simp only [Option.map_eq_some'] at hacc
      obtain ⟨⟨ps', gs'⟩, hrec, heq⟩ := hacc
      simp only [Prod.mk.injEq] at heq
      obtain ⟨hps, hgs⟩ := heq
      rw [checkLoop_cons_ok player kind m ms st np g hguard hcb]
      have ih' := ih
        { CurrentParameters := np.getD []
          ReturnCallbacks := st.ReturnCallbacks ++ [g]
          Result := some (.ok np g) } ps' gs'
        (by simp [resultGuard, ThreadResult.isOk]) (by simpa using hrec)
      refine ⟨by rw [ih'.1, hps], ?_, ih'.2.2⟩
      rw [ih'.2.1]
      simp [← hgs]

lemma foldl_apply_compose {U : Type} :
    ∀ (gs : List (U → U)) (f : U → U) (v : U),
      (gs.foldl (fun acc g => g ∘ acc) f) v =
        gs.foldl (fun acc fn => fn acc) (f v) := by
  intro gs
  induction gs with
  | nil => intro f v; rfl
  | cons g gs ih =>
    intro f v
    simp only [List.foldl_cons]
    rw [ih (g ∘ f) v]
    rfl

lemma composeTransforms_eq_foldl {U : Type} (gs : List (U → U)) (v : U) :
    composeTransforms gs v = gs.foldl (fun acc fn => fn acc) v := by
  rw [composeTransforms, foldl_apply_compose gs id v]
  rfl

/-- A stage that rejects with reason `"nope"` in both directions. -/
def mwRej : NetBuilderMiddleware Nat :=
  { Label := "Rej"
    Send := fun _ _ => .err "nope"
    Recv := fun _ _ => .err "nope" }

/-- A target whose only stage is the rejecting stage. -/
def exRejectDef : RemoteDefinitionMembers Nat :=
  { Middlewares := [mwRej], GlobalMiddlewares := [], Identity := "ExRej" }

/-- A stage that accepts without supplying new arguments (Lua `nil`). -/
def mwNoneArgs : NetBuilderMiddleware Nat :=
  { Label := "NoneArgs"
    Send := fun _ _ => .ok none (fun v => v)
    Recv := fun _ _ => .ok none (fun v => v) }

/-! ## Claim C4 -/

/-- C4: if a stage rejects (explicitly or by the synthesized timeout
rejection), the chain stops at it: the terminal state is the state the
rejecting stage received with only `Result` set to the rejection — the
argument list and transform list are unchanged — and the stages after it
are never consulted (the outcome is the same for every continuation of
the chain).  At adapter level, a failed `Recv` chain makes
`CreateReceiver` return the `"ERR"` result carrying the reason, with the
same output for every real callback (the callback is never invoked), and
a failed `Send` chain makes `CreateSender` return the error (no
hand-off value is produced). -/
theorem chain_short_circuits_on_rejection :
    (∀ (U : Type) (player : Option U) (kind : Kind)
       (m : NetBuilderMiddleware U) (post post' : List (NetBuilderMiddleware U))
       (st : MiddlewareEntry U) (e : String),
       resultGuard st.Result = true →
       stageCallback m kind player st.CurrentParameters = .err e →
       checkLoop player kind (m :: post) st = { st with Result := some (.err e) } ∧
       checkLoop player kind (m :: post) st = checkLoop player kind (m :: post') st) ∧
    (∀ (U : Type) (rs : RunServiceState U) (d : RemoteDefinitionMembers U)
       (args : List U) (e : String) (cb cb' : List U → U),
       getMiddlewares d ≠ [] →
       (checkMiddlewares rs d .Recv args).Result = some (.err e) →
       CreateReceiver rs d cb args =
         { Result := some "ERR", «Type» := none, Value := none, Message := some e } ∧
       CreateReceiver rs d cb args = CreateReceiver rs d cb' args) ∧
    (∀ (U : Type) (rs : RunServiceState U) (d : RemoteDefinitionMembers U)
       (args : List U) (e : String),
       getMiddlewares d ≠ [] →
       (checkMiddlewares rs d .Send args).Result = some (.err e) →
       CreateSender rs d args = .error e) := by
  refine ⟨?_, ?_, ?_⟩
  · intro U player kind m post post' st e hguard hcb
    rw [checkLoop_cons_err player kind m post st e hguard hcb,
      checkLoop_cons_err player kind m post' st e hguard hcb]
    exact ⟨rfl, rfl⟩
  · intro U rs d args e cb cb' hne herr
    have hlen : 0 < (getMiddlewares d).length := List.length_pos.mpr hne
    have hout : ∀ f : List U → U, CreateReceiver rs d f args =
        { Result := some "ERR", «Type» := none, Value := none, Message := some e } := by
      intro f
      simp [CreateReceiver, hlen, herr]
    exact ⟨hout cb, by rw [hout cb, hout cb']⟩
  · intro U rs d args e hne herr
    have hlen : 0 < (getMiddlewares d).length := List.length_pos.mpr hne
    simp [CreateSender, hlen, herr]

/-- C4 witness: a concrete rejecting chain. -/
theorem chain_short_circuits_on_rejection_witness :
    checkLoop (some 0) .Recv [mwRej, mwA]
        { CurrentParameters := [1, 2], ReturnCallbacks := [], Result := none } =
      { CurrentParameters := [1, 2], ReturnCallbacks := []
        Result := some (.err "nope") } ∧
    CreateReceiver rsClient exRejectDef (fun _ => 0) [1, 2] =
      { Result := some "ERR", «Type» := none, Value := none, Message := some "nope" } ∧
    CreateReceiver rsClient exRejectDef (fun _ => 0) [1, 2] =
      CreateReceiver rsClient exRejectDef (fun _ => 7) [1, 2] ∧
    CreateSender rsClient exRejectDef [1, 2] = .error "nope" := by
  have hne : getMiddlewares exRejectDef ≠ [] := by
    rw [show getMiddlewares exRejectDef = [mwRej] from rfl]
    exact List.cons_ne_nil _ _
  refine ⟨?_, ?_, ?_, ?_⟩
  · exact (chain_short_circuits_on_rejection.1 Nat (some 0) .Recv mwRej [mwA] [mwA]
      { CurrentParameters := [1, 2], ReturnCallbacks := [], Result := none }
      "nope" rfl rfl).1
  · exact (chain_short_circuits_on_rejection.2.1 Nat rsClient exRejectDef [1, 2]
      "nope" (fun _ => 0) (fun _ => 7) hne rfl).1
  · exact (chain_short_circuits_on_rejection.2.1 Nat rsClient exRejectDef [1, 2]
      "nope" (fun _ => 0) (fun _ => 7) hne rfl).2
  · exact chain_short_circuits_on_rejection.2.2 Nat rsClient exRejectDef [1, 2]
      "nope" hne rfl

/-- A stage that accepts, passes the parameters through and adds one to
the return value. -/
def mwInc : NetBuilderMiddleware Nat :=
  { Label := "a"
    Send := fun _ ps => .ok (some ps) (fun v => v + 1)
    Recv := fun _ ps => .ok (some ps) (fun v => v + 1) }

/-- A stage that accepts, passes the parameters through and doubles the
return value. -/
def mwDouble : NetBuilderMiddleware Nat :=
  { Label := "b"
    Send := fun _ ps => .ok (some ps) (fun v => v * 2)
    Recv := fun _ ps => .ok (some ps) (fun v => v * 2) }

/-- A target with the two accepting stages above, in order. -/
def exChainDef : RemoteDefinitionMembers Nat :=
  { Middlewares := [mwInc, mwDouble], GlobalMiddlewares := [], Identity := "ExChain" }

/-! ## Claim C5 -/

/-- C5: when every stage of the resolved chain accepts, the transform
list accumulates the stages' return-value transforms in acceptance
order, and the fold both adapters apply to the callback's (or
transport's) result equals `stageN(...stage1(v))` — the first-accepted
transform innermost (`composeTransforms`), the last one outermost. -/
theorem transforms_fold_in_acceptance_order :
    ∀ (U : Type) (rs : RunServiceState U) (d : RemoteDefinitionMembers U)
      (kind : Kind) (args ps : List U) (gs : List (U → U)),
      acceptingTransforms (getPlayerFromArgs rs args) kind (getMiddlewares d)
          (resolveParameters rs args) = some (ps, gs) →
      (checkMiddlewares rs d kind args).ReturnCallbacks = gs ∧
      (checkMiddlewares rs d kind args).CurrentParameters = ps ∧
      (∀ v, gs.foldl (fun acc fn => fn acc) v = composeTransforms gs v) ∧
      (kind = .Recv → getMiddlewares d ≠ [] → ∀ cb,
        CreateReceiver rs d cb args =
          { Result := some "OK", «Type» := none
            Value := some (composeTransforms gs
              (cb (executeArgs rs (getPlayerFromArgs rs args) ps)))
            Message := none }) ∧
      (kind = .Send → getMiddlewares d ≠ [] →
        ∃ t, CreateSender rs d args = .ok (ps, t) ∧
          ∀ v, t v = composeTransforms gs v) := by
  intro U rs d kind args ps gs hacc
  have hcm : checkMiddlewares rs d kind args =
      checkLoop (getPlayerFromArgs rs args) kind (getMiddlewares d)
        { CurrentParameters := resolveParameters rs args
          ReturnCallbacks := []
          Result := none } := rfl
  have hmain := checkLoop_accepting (getPlayerFromArgs rs args) kind
    (getMiddlewares d)
    { CurrentParameters := resolveParameters rs args
      ReturnCallbacks := []
      Result := none } ps gs rfl hacc
  rw [← hcm] at hmain
  obtain ⟨hps, hgs, hguard⟩ := hmain
  simp only [List.nil_append] at hgs
  refine ⟨hgs, hps, fun v => (composeTransforms_eq_foldl gs v).symm, ?_, ?_⟩
  · intro hk hne cb
    subst hk
    have hlen : 0 < (getMiddlewares d).length := List.length_pos.mpr hne
    cases hres : (checkMiddlewares rs d .Recv args).Result with
    | none =>
      simp [CreateReceiver, hlen, hres, hgs, hps, composeTransforms_eq_foldl]
    | some r =>
      cases r with
      | ok np g =>
        simp [CreateReceiver, hlen, hres, hgs, hps, composeTransforms_eq_foldl]
      | err e =>
        rw [hres] at hguard
        simp [resultGuard, ThreadResult.isOk] at hguard
  · intro hk hne
    subst hk
    have hlen : 0 < (getMiddlewares d).length := List.length_pos.mpr hne
    refine ⟨fun r => (checkMiddlewares rs d .Send args).ReturnCallbacks.foldl
      (fun acc fn => fn acc) r, ?_, ?_⟩
    · cases hres : (checkMiddlewares rs d .Send args).Result with
      | none => simp [CreateSender, hlen, hres, hps]
      | some r =>
        cases r with
        | ok np g => simp [CreateSender, hlen, hres, hps]
        | err e =>
          rw [hres] at hguard
          simp [resultGuard, ThreadResult.isOk] at hguard
    · intro v
      rw [hgs, composeTransforms_eq_foldl]

/-- C5 witness: two accepting stages `v ↦ v + 1` then `v ↦ v * 2`; the
folded transform is `(v + 1) * 2` — the first-accepted transform applied
first. -/
theorem transforms_fold_in_acceptance_order_witness :
    CreateReceiver rsClient exChainDef (fun l => l.headD 0) [3] =
      { Result := some "OK", «Type» := none
        Value := some (composeTransforms [fun v => v + 1, fun v => v * 2] 3)
        Message := none } ∧
    composeTransforms [fun v : Nat => v + 1, fun v => v * 2] 3 = 8 := by
  have hne : getMiddlewares exChainDef ≠ [] := by
    rw [show getMiddlewares exChainDef = [mwInc, mwDouble] from rfl]
    exact List.cons_ne_nil _ _
  constructor
  · exact (transforms_fold_in_acceptance_order Nat rsClient exChainDef .Recv [3] [3]
      [fun v => v + 1, fun v => v * 2] rfl).2.2.2.1 rfl hne (fun l => l.headD 0)
  · rfl

/-! ## Claim C8 -/

/-- C8: when a stage accepts, the current argument list is replaced by
the arguments the stage supplied — the empty list when it supplied none
(`newParams ?? []`), not the previous arguments and not an error — and
the stage's return-value transform is appended to the transform list
before the next stage runs. -/
theorem acceptance_updates_chain_state :
    ∀ (U : Type) (player : Option U) (kind : Kind)
      (m : NetBuilderMiddleware U) (ms : List (NetBuilderMiddleware U))
      (st : MiddlewareEntry U) (np : Option (List U)) (g : U → U),
      resultGuard st.Result = true →
      stageCallback m kind player st.CurrentParameters = .ok np g →
      checkLoop player kind (m :: ms) st =
        checkLoop player kind ms
          { CurrentParameters := np.getD []
            ReturnCallbacks := st.ReturnCallbacks ++ [g]
            Result := some (.ok np g) } ∧
      (np = none →
        checkLoop player kind (m :: ms) st =
          checkLoop player kind ms
            { CurrentParameters := []
              ReturnCallbacks := st.ReturnCallbacks ++ [g]
              Result := some (.ok none g) }) := by
  intro U player kind m ms st np g hguard hcb
  constructor
  · exact checkLoop_cons_ok player kind m ms st np g hguard hcb
  · intro hnp
    subst hnp
    exact checkLoop_cons_ok player kind m ms st none g hguard hcb

/-- C8 witness: a stage accepting without supplying arguments empties
the parameter list and appends its transform. -/
theorem acceptance_updates_chain_state_witness :
    checkLoop (some 0) .Recv [mwNoneArgs]
        { CurrentParameters := [1, 2], ReturnCallbacks := [], Result := none } =
      checkLoop (some 0) .Recv []
        { CurrentParameters := []
          ReturnCallbacks := [] ++ [fun v => v]
          Result := some (.ok none (fun v => v)) } := by
  exact (acceptance_updates_chain_state Nat (some 0) .Recv mwNoneArgs []
    { CurrentParameters := [1, 2], ReturnCallbacks := [], Result := none }
    none (fun v => v) rfl rfl).2 rfl

/-- A target with no middleware at all. -/
def exEmptyDef : RemoteDefinitionMembers Nat :=
  { Middlewares := [], GlobalMiddlewares := [], Identity := "ExEmpty" }

/-- A target whose only stage passes everything through. -/
def exPassDef : RemoteDefinitionMembers Nat :=
  { Middlewares := [mwA], GlobalMiddlewares := [], Identity := "ExPass" }

/-! ## Claim C7 -/

/-- C7: with an empty resolved stage list the call is trivially
successful: `CreateReceiver` reports `"OK"` with the real callback
applied to the raw arguments unchanged (identity-adjusted: on the server
the extracted player is passed in front of them), and `CreateSender`
returns the original argument list with the identity return-value
transform. -/
theorem empty_chain_identity :
    ∀ (U : Type) (rs : RunServiceState U) (d : RemoteDefinitionMembers U)
      (cb : List U → U) (args : List U),
      getMiddlewares d = [] →
      CreateReceiver rs d cb args =
        { Result := some "OK", «Type» := none
          Value := some (cb (executeArgs rs (getPlayerFromArgs rs args) args))
          Message := none } ∧
      CreateSender rs d args = .ok (args, fun r => r) := by
  intro U rs d cb args h
  constructor
  · simp [CreateReceiver, h]
  · simp [CreateSender, h]

/-- C7 witness: a middleware-free target; on the client the callback
sees the two raw arguments, on the server it sees the extracted player
followed by the raw arguments, and the sender returns the arguments with
the identity transform. -/
theorem empty_chain_identity_witness :
    CreateReceiver rsClient exEmptyDef (fun l => l.length) [5, 6] =
      { Result := some "OK", «Type» := none, Value := some 2, Message := none } ∧
    CreateReceiver rsServer exEmptyDef (fun l => l.length) [5, 6] =
      { Result := some "OK", «Type» := none, Value := some 3, Message := none } ∧
    CreateSender rsClient exEmptyDef [5, 6] = .ok ([5, 6], fun r => r) := by
  exact ⟨(empty_chain_identity Nat rsClient exEmptyDef (fun l => l.length) [5, 6] rfl).1,
    (empty_chain_identity Nat rsServer exEmptyDef (fun l => l.length) [5, 6] rfl).1,
    (empty_chain_identity Nat rsClient exEmptyDef (fun l => l.length) [5, 6] rfl).2⟩

/-! ## Claim C9 -/

/-- C9 (implicit): `CreateReceiver` tags its outputs with the field
`Result` set to `"OK"`/`"ERR"` and never sets the field `Type`, while
`rustResult` tests `Type === "Ok"`; hence the converter classifies every
receiver output as an error, regardless of the middleware outcome. -/
theorem rustResult_never_ok_on_receiver_output :
    ∀ (U : Type) (rs : RunServiceState U) (d : RemoteDefinitionMembers U)
      (cb : List U → U) (args : List U),
      (CreateReceiver rs d cb args).«Type» = none ∧
      rustResult (CreateReceiver rs d cb args) =
        .error (CreateReceiver rs d cb args).Message := by
  intro U rs d cb args
  have hT : (CreateReceiver rs d cb args).«Type» = none := by
    unfold CreateReceiver
    dsimp only
    split
    · split <;> rfl
    · rfl
  refine ⟨hT, ?_⟩
  simp [rustResult, hT]

/-! ## Claim C6 -/

/-- C6 counterexample: caller-identity extraction follows the executing
side (server vs client), not the call role.  `CreateSender` is the
originating-side entry point, yet on the server it removes the first
element of the outgoing argument list (with a pass-through stage, the
sender hands `[8, 9]` to transport for raw arguments `[7, 8, 9]`),
contradicting "no element is removed from the outgoing argument list";
and on the client — the delivering side of a server→client call — the
identity is `LocalPlayer`, not the first raw argument, and nothing is
removed. -/
theorem identity_extraction_side_counterexample :
    (CreateSender rsServer exPassDef [7, 8, 9]).toOption.map Prod.fst =
      some [8, 9] ∧
    some ([8, 9] : List Nat) ≠ some [7, 8, 9] ∧
    getPlayerFromArgs rsClient [7, 8, 9] = some 0 ∧
    getPlayerFromArgs rsClient [7, 8, 9] ≠ some 7 ∧
    resolveParameters rsClient [7, 8, 9] = [7, 8, 9] := by
  refine ⟨rfl, by decide, rfl, by decide, rfl⟩

/-- C6 (amended): caller-identity extraction is asymmetric by executing
side, not by delivering/originating role: on the server — in both
directions — the identity is the first element of the raw argument list
and is removed before middleware processing, while on the client — in
both directions — the identity is the `LocalPlayer` of the execution
context and no element is removed.  This coincides with the claim for
client→server calls but not for server-side sends or client-side
receives. -/
theorem identity_extraction_by_server_side :
    ∀ (U : Type) (rs : RunServiceState U) (args : List U)
      (d : RemoteDefinitionMembers U) (kind : Kind),
      (rs.IsServer = true →
        getPlayerFromArgs rs args = args.head? ∧
        resolveParameters rs args = args.tail) ∧
      (rs.IsServer = false →
        getPlayerFromArgs rs args = some rs.LocalPlayer ∧
        resolveParameters rs args = args) ∧
      (getMiddlewares d = [] →
        checkMiddlewares rs d .Send args = checkMiddlewares rs d .Recv args ∧
        (checkMiddlewares rs d kind args).CurrentParameters =
          resolveParameters rs args) := by
  intro U rs args d kind
  refine ⟨?_, ?_, ?_⟩
  · intro h
    constructor
    · simp [getPlayerFromArgs, RunServiceState.IsClient, h]
    · simp [resolveParameters, h]
  · intro h
    constructor
    · simp [getPlayerFromArgs, RunServiceState.IsClient, h]
    · simp [resolveParameters, h]
  · intro h
    constructor
    · simp [checkMiddlewares, h, checkLoop]
    · simp [checkMiddlewares, h, checkLoop]

/-- C6 witness: on the server the identity is the head and the list
loses it in both directions; on the client the identity is
`LocalPlayer` and the list is untouched. -/
theorem identity_extraction_by_server_side_witness :
    (getPlayerFromArgs rsServer [7, 8, 9] = some 7 ∧
      resolveParameters rsServer [7, 8, 9] = [8, 9]) ∧
    (getPlayerFromArgs rsClient [7, 8, 9] = some 0 ∧
      resolveParameters rsClient [7, 8, 9] = [7, 8, 9]) ∧
    checkMiddlewares rsServer exEmptyDef .Send [7, 8, 9] =
      checkMiddlewares rsServer exEmptyDef .Recv [7, 8, 9] := by
  exact ⟨(identity_extraction_by_server_side Nat rsServer [7, 8, 9]
      exEmptyDef .Send).1 rfl,
    (identity_extraction_by_server_side Nat rsClient [7, 8, 9]
      exEmptyDef .Send).2.1 rfl,
    ((identity_extraction_by_server_side Nat rsServer [7, 8, 9]
      exEmptyDef .Send).2.2 rfl).1⟩

/-! ## Claim C2 -/

/-- C2: a stage that never calls either continuation settles through the
timeout: the channel settles exactly at the configured duration
(`timeout = 60`, and not earlier — the timeout is the earliest close
attempt) with a rejection whose reason is exactly the target's
diagnostic label, a space, and the fixed message
`"middleware processing has timed out. (60s)"`. -/
theorem timeout_settles_with_diagnostic_reason :
    ∀ (U : Type) (d : RemoteDefinitionMembers U),
      (runChannel d []).settled =
        some (.err (definitionInfo d ++ " " ++ timeoutMsg)) ∧
      timeoutMsg = "middleware processing has timed out. (60s)" ∧
      settleTime d [] = some timeout ∧
      timeout = 60 := by
  intro U d
  exact ⟨rfl, rfl, rfl, rfl⟩

/-! ## Claim C3 -/

lemma close_isDone {U : Type} (st : ChannelState U) (r : ThreadResult U) :
    (close r st).isDone = true := by
  cases h : st.isDone
  · simp [close, h]
  · simp [close, h]

lemma close_done {U : Type} (st : ChannelState U) (r : ThreadResult U)
    (h : st.isDone = true) : close r st = st := by
  simp [close, h]

lemma foldl_close_done {U : Type} :
    ∀ (rest : List (ThreadResult U)) (st : ChannelState U),
      st.isDone = true →
      rest.foldl (fun st x => close x st) st = st := by
  intro rest
  induction rest with
  | nil => intro st h; rfl
  | cons x xs ih =>
    intro st h
    simp only [List.foldl_cons, close_done st x h]
    exact ih st h

/-- C3: a channel settles at most once.  `close` always leaves the
channel done; closing an already-closed channel is the identity (no
result change, no re-wake, no second resource release); hence whichever
close attempt comes first fully determines the outcome — any sequence of
later attempts leaves the state of the first one — and the first close
releases each resource (waiter wake, deferred coroutine close, timer
cancel, bindable fire) exactly once. -/
theorem channel_close_idempotent :
    (∀ (U : Type) (st : ChannelState U) (r r' : ThreadResult U),
      (close r st).isDone = true ∧ close r' (close r st) = close r st) ∧
    (∀ (U : Type) (r : ThreadResult U) (rest : List (ThreadResult U)),
      rest.foldl (fun st x => close x st) (close r (initChannel : ChannelState U)) =
        close r (initChannel : ChannelState U)) ∧
    (∀ (U : Type) (r : ThreadResult U),
      (close r (initChannel : ChannelState U)).settled = some r ∧
      (close r (initChannel : ChannelState U)).waiterSpawns = 1 ∧
      (close r (initChannel : ChannelState U)).chCloseDefers = 1 ∧
      (close r (initChannel : ChannelState U)).timeoutCancels = 1 ∧
      (close r (initChannel : ChannelState U)).bindableFires = 1) := by
  refine ⟨?_, ?_, ?_⟩
  · intro U st r r'
    exact ⟨close_isDone st r, close_done _ r' (close_isDone st r)⟩
  · intro U r rest
    exact foldl_close_done rest _ (close_isDone _ r)
  · intro U r
    exact ⟨rfl, rfl, rfl, rfl, rfl⟩

/-! ## Claim C10 -/

lemma runStageBody_acts {U : Type} :
    ∀ (k : Nat) (steps : List (StageStep U)) (st : ChannelState U),
      runStageBody (List.replicate k .act ++ steps) st =
        ((runStageBody steps st).1 + k, (runStageBody steps st).2) := by
  intro k
  induction k with
  | zero => intro steps st; simp
  | succ k ih =>
    intro steps st
    rw [List.replicate_succ, List.cons_append]
    show ((runStageBody (List.replicate k .act ++ steps) st).1 + 1,
      (runStageBody (List.replicate k .act ++ steps) st).2) = _
    rw [ih steps st]
    refine Prod.ext ?_ rfl
    simp
    omega

/-- C10 (implicit): once a stage's first continuation call performs the
close (the channel was still open), control never returns to the stage
body: exactly the steps up to and including that call execute — the
result is independent of whatever code follows — and the deferred
`coroutine.close` of the stage coroutine is registered exactly once. -/
theorem stage_body_stops_after_first_settle :
    ∀ (U : Type) (k : Nat) (post : List (StageStep U))
      (a : Option (List U)) (f : U → U) (m : String),
      runStageBody (List.replicate k .act ++ .callAccept a f :: post)
          (initChannel : ChannelState U) = (k + 1, processNext a f initChannel) ∧
      runStageBody (List.replicate k .act ++ .callReject m :: post)
          (initChannel : ChannelState U) = (k + 1, channelDrop m initChannel) ∧
      (processNext a f (initChannel : ChannelState U)).chCloseDefers = 1 ∧
      (channelDrop m (initChannel : ChannelState U)).chCloseDefers = 1 := by
  intro U k post a f m
  refine ⟨?_, ?_, rfl, rfl⟩
  · rw [runStageBody_acts k (.callAccept a f :: post) initChannel]
    show ((1 : Nat) + k, processNext a f initChannel) = _
    rw [Nat.add_comm]
  · rw [runStageBody_acts k (.callReject m :: post) initChannel]
    show ((1 : Nat) + k, channelDrop m initChannel) = _
    rw [Nat.add_comm]

end NetBuilderModel
